import Mathlib

/-!
Verification of the AI-Trend-Agent news pipeline.

The Python sources are shallowly embedded: Python `str` values are modelled
as `List Char` (code points, so `len` is list length), dictionaries with a
fixed key set are modelled as structures, and the I/O reply of the
generation service is passed in explicitly as an `Option` value.  All
definitions are executable and kernel-reducible.
-/

/-- Python strings are modelled as lists of characters. -/
abbrev PyStr := List Char

/-- The ASCII whitespace characters stripped by Python `str.strip()`
(space, tab, newline, carriage return, vertical tab, form feed).
Unicode whitespace is not modelled. -/
def pyIsSpace (c : Char) : Bool :=
  c = ' ' || c = '\t' || c = '\n' || c = '\r' || c = Char.ofNat 11 || c = Char.ofNat 12

/-- Python `s.strip()`: remove leading and trailing whitespace. -/
def pyStrip (s : PyStr) : PyStr :=
  ((s.dropWhile pyIsSpace).reverse.dropWhile pyIsSpace).reverse

/-- Python `s.split(sep)` for a one-character separator `sep`: split at every
occurrence, keeping empty pieces, as Python does. -/
def splitOnChar (sep : Char) : PyStr → List PyStr
  | [] => [[]]
  | c :: rest =>
    match splitOnChar sep rest with
    | [] => [[c]]
    | h :: t => if c = sep then [] :: h :: t else (c :: h) :: t

/-- Python `s.split(sep, 1)[1]` for a one-character separator: everything
after the first occurrence of `sep`.  If `sep` does not occur Python raises
`IndexError`; every call site in the source is guarded by a check that the
line starts with a text containing `sep`, so that case is unreachable and is
modelled as the empty string. -/
def afterFirst (sep : Char) : PyStr → PyStr
  | [] => []
  | c :: rest => if c = sep then rest else afterFirst sep rest

/-- Lower-casing of a single character, ASCII range (Python `str.lower()`
also folds non-ASCII letters; the articles handled by the pipeline are
modelled as ASCII). -/
def pyLowerChar (c : Char) : Char :=
  if 'A' ≤ c ∧ c ≤ 'Z' then Char.ofNat (c.toNat + 32) else c

/-- Python `s.lower()`. -/
def pyLower (s : PyStr) : PyStr := s.map pyLowerChar

/-- The value of a decimal-digit list, most significant digit first. -/
def digitsVal (ds : PyStr) : Nat :=
  ds.foldl (fun n c => 10 * n + (c.toNat - 48)) 0

/-- Python `int(s)`: strip whitespace, then an optional sign followed by a
nonempty run of decimal digits; any other shape raises `ValueError`,
modelled as `none`.  (Python additionally accepts underscore digit
grouping and non-ASCII digits; those only change which strings parse and
are not modelled.) -/
def pyInt (s : PyStr) : Option Int :=
  match pyStrip s with
  | '-' :: ds => if ds ≠ [] ∧ ds.all Char.isDigit then some (-(digitsVal ds : Int)) else none
  | '+' :: ds => if ds ≠ [] ∧ ds.all Char.isDigit then some (digitsVal ds : Int) else none
  | ds => if ds ≠ [] ∧ ds.all Char.isDigit then some (digitsVal ds : Int) else none

/-- An input article, as the dictionaries produced by the extractor:
`title`, `summary`, `source` and `url` fields (absent keys are modelled by
the empty string, matching the `article.get(key, '')` accesses in the
source). -/
structure Article where
  title : PyStr
  summary : PyStr
  source : PyStr
  url : PyStr
deriving DecidableEq

/-- The dictionary returned by `OllamaManager.analyze_article_quality` /
`_parse_quality_analysis` in `llm_test.py`.  `raw_response` is only present
on the parsing path, hence an `Option`. -/
structure QualityAnalysis where
  quality_score : Int
  relevance_score : Int
  category : PyStr
  insights : List PyStr
  reason : PyStr
  llm_analysis : Bool
  raw_response : Option PyStr
deriving DecidableEq

/-- The initial `result` dictionary of `_parse_quality_analysis`
(`llm_test.py` lines 140-148). -/
def initResult (response : PyStr) : QualityAnalysis :=
  { quality_score := 5
    relevance_score := 5
    category := ("AI/ML").toList
    insights := []
    reason := []
    llm_analysis := true
    raw_response := some response }

/-- `int(line.split(':')[1].split('/')[0].strip())` from `llm_test.py`
lines 154 and 160: the numeric value of a `Quality:`/`Relevance:` line. -/
def numericField (line : PyStr) : Option Int :=
  pyInt (pyStrip ((splitOnChar '/' ((splitOnChar ':' line).getD 1 [])).headD []))

/-- `line.split(':', 1)[1].strip()` from `llm_test.py` lines 165-171: the
text value of a `Category:`/`Insights:`/`Reason:` line. -/
def textField (line : PyStr) : PyStr := pyStrip (afterFirst ':' line)

/-- One iteration of the line loop of `_parse_quality_analysis`
(`llm_test.py` lines 150-172): strip the line, match it against the five
known field headers with `str.startswith`, and update the corresponding
field; a `Quality:`/`Relevance:` line whose value does not parse as an
integer is ignored (`try`/`except`/`pass`), a parsed value is clamped with
`max(1, min(10, score))`. -/
def step (r : QualityAnalysis) (line0 : PyStr) : QualityAnalysis :=
  let line := pyStrip line0
  if (("Quality:").toList).isPrefixOf line then
    match numericField line with
    | some n => { r with quality_score := max 1 (min 10 n) }
    | none => r
  else if (("Relevance:").toList).isPrefixOf line then
    match numericField line with
    | some n => { r with relevance_score := max 1 (min 10 n) }
    | none => r
  else if (("Category:").toList).isPrefixOf line then
    { r with category := textField line }
  else if (("Insights:").toList).isPrefixOf line then
    { r with insights := [textField line] }
  else if (("Reason:").toList).isPrefixOf line then
    { r with reason := textField line }
  else r

/-- `response.strip().split('\n')` from `llm_test.py` line 139. -/
def linesOf (response : PyStr) : List PyStr :=
  splitOnChar '\n' (pyStrip response)

/-- `OllamaManager._parse_quality_analysis` (`llm_test.py` lines 136-185):
fold the line loop over the lines of the reply, starting from the default
result.  The outer `try`/`except` of the Python function is dead code (no
statement in the body can raise: the only unguarded indexing is under a
`startswith` check that guarantees the index exists) and is not modelled. -/
def parse_quality_analysis (response : PyStr) : QualityAnalysis :=
  (linesOf response).foldl step (initResult response)

/-- The fallback dictionary of `analyze_article_quality` (`llm_test.py`
lines 127-134), used when the generation call returns no usable reply. -/
def fallbackAnalysis : QualityAnalysis :=
  { quality_score := 5
    relevance_score := 5
    category := ("AI/ML").toList
    insights := [("Unable to analyze with LLM").toList]
    reason := ("LLM analysis failed").toList
    llm_analysis := false
    raw_response := none }

/-- `OllamaManager.analyze_article_quality` (`llm_test.py` lines 93-134),
with the generation-service reply passed in explicitly: `none` models a
failed `generate_response` call (which returns `None`), and a reply that is
the empty string is falsy in Python (`if response:`), so it also takes the
fallback branch.  The article itself only influences the prompt, not the
analysis of the reply. -/
def analyze_article_quality (resp : Option PyStr) : QualityAnalysis :=
  match resp with
  | none => fallbackAnalysis
  | some r => if r = [] then fallbackAnalysis else parse_quality_analysis r

-- Sanity checks on concrete inputs.
example : (parse_quality_analysis (("Quality: 8/10").toList)).quality_score = 8 := by decide
example : (parse_quality_analysis (("Quality: 13/10").toList)).quality_score = 10 := by decide
example : (parse_quality_analysis (("Quality: -3/10").toList)).quality_score = 1 := by decide
example : (parse_quality_analysis (("Quality: x/10").toList)).quality_score = 5 := by decide
example : (parse_quality_analysis (("quality: 8/10").toList)).quality_score = 5 := by decide
example :
    (parse_quality_analysis (("Category: Research").toList)).category = ("Research").toList := by
  decide
example :
    (parse_quality_analysis (("Quality: 3/10\nQuality: 9/10").toList)).quality_score = 9 := by
  decide

/-- An article together with the analysis attached by `curate_articles`
(`llm_test.py` lines 251-261): the `llm_analysis` entry and the
`final_score` entry added to the article dictionary. -/
structure ScoredArticle where
  article : Article
  analysis : QualityAnalysis
  final_score : ℚ
deriving DecidableEq

/-- The body of the loop in `curate_articles` (`llm_test.py` lines
251-261): analyze one article and attach
`final_score = (quality_score + relevance_score) / 2`.  The pair carries
the reply of the generation service for this article (`none` = failed
call).  Python's float division of an integer sum by 2 is exact, so it is
modelled by the exact rational `mkRat (q + r) 2`. -/
def scoreArticle (p : Article × Option PyStr) : ScoredArticle :=
  let analysis := analyze_article_quality p.2
  { article := p.1
    analysis := analysis
    final_score := mkRat (analysis.quality_score + analysis.relevance_score) 2 }

/-- The sort order of `curated_articles.sort(key=lambda x: x['final_score'],
reverse=True)`: descending by final score. -/
def scoreGE (a b : ScoredArticle) : Prop := b.final_score ≤ a.final_score

instance : DecidableRel scoreGE := fun _ _ => inferInstanceAs (Decidable (_ ≤ _))

instance : IsTotal ScoredArticle scoreGE :=
  ⟨fun a b => le_total b.final_score a.final_score⟩

instance : IsTrans ScoredArticle scoreGE :=
  ⟨fun _ _ _ h₁ h₂ => le_trans h₂ h₁⟩

/-- `OllamaManager.curate_articles` (`llm_test.py` lines 242-266): score
every article, then sort descending by `final_score`.  Python's
`list.sort` with `reverse=True` is a stable sort, and a stable sort is a
unique function of the input list and the key order, so it is modelled by
the stable `List.insertionSort` on the descending order `scoreGE`.  (The
early return for the empty input list equals the general path on `[]`.) -/
def curate_articles (l : List (Article × Option PyStr)) : List ScoredArticle :=
  List.insertionSort scoreGE (l.map scoreArticle)

/-- `OllamaManager.select_top_articles` (`llm_test.py` lines 268-279):
keep the curated articles with `final_score >= 6.0` and take the first
`count` of them. -/
def select_top_articles (l : List (Article × Option PyStr)) (count : Nat) : List ScoredArticle :=
  ((curate_articles l).filter (fun a => 6 ≤ a.final_score)).take count

/-- The URL-deduplication loop of `NewsExtractor.extract_from_website`
(`news_extractor.py` lines 326-331), written as a recursion on the
candidate list with the `seen_urls` set as a parameter: an article is kept
iff its URL is truthy (nonempty) and not seen before; appending to the
result list corresponds to consing in the recursion. -/
def dedupByURL (seen : List PyStr) : List Article → List Article
  | [] => []
  | a :: rest =>
    if a.url ≠ [] ∧ a.url ∉ seen then a :: dedupByURL (a.url :: seen) rest
    else dedupByURL seen rest

/-- The title-deduplication loop of `NewsExtractor.extract_multiple_sources`
(`news_extractor.py` lines 354-360), written as a recursion on the article
list with the `seen_titles` set as a parameter: an article is kept iff its
lower-cased title is unseen AND longer than 15 characters. -/
def dedupByTitle (seen : List PyStr) : List Article → List Article
  | [] => []
  | a :: rest =>
    if pyLower a.title ∉ seen ∧ 15 < (pyLower a.title).length then
      a :: dedupByTitle (pyLower a.title :: seen) rest
    else dedupByTitle seen rest

/-- The `ai_terms` vocabulary of `ChromaDBManager.detect_trends`
(`chroma_db.py` lines 166-172), in source order. -/
def ai_terms : List PyStr :=
  [("GPT").toList, ("LLM").toList, ("Large Language Model").toList,
   ("ChatGPT").toList, ("OpenAI").toList, ("machine learning").toList,
   ("deep learning").toList, ("neural network").toList,
   ("transformer").toList, ("AI model").toList,
   ("artificial intelligence").toList, ("computer vision").toList,
   ("natural language processing").toList, ("NLP").toList]

/-- Helper for `countOccs`: scan the text left to right; a positive first
argument means that many characters of a previous match remain to be
skipped before searching resumes. -/
def countOccsAux (pat : PyStr) : Nat → PyStr → Nat
  | _, [] => 0
  | Nat.succ k, _ :: rest => countOccsAux pat k rest
  | 0, c :: rest =>
    if pat.isPrefixOf (c :: rest) then 1 + countOccsAux pat (pat.length - 1) rest
    else countOccsAux pat 0 rest

/-- Python `text.count(pat)` for nonempty `pat`: the number of
non-overlapping occurrences of `pat` in `text`, scanning left to right. -/
def countOccs (pat text : PyStr) : Nat := countOccsAux pat 0 text

/-- `f"{article.get('title', '')} {article.get('summary', '')}".lower()`
from `chroma_db.py` line 179. -/
def articleText (a : Article) : PyStr := pyLower (a.title ++ ' ' :: a.summary)

/-- The `total_text` accumulation of `detect_trends` (`chroma_db.py` lines
178-181): the lowered title-summary texts, each followed by a space. -/
def totalText (l : List Article) : PyStr :=
  l.foldl (fun acc a => acc ++ articleText a ++ [' ']) []

/-- The `term_counts` dictionary of `detect_trends` (`chroma_db.py` lines
183-186) as an association list: Python dictionaries iterate in insertion
order, which is the `ai_terms` order, so the dictionary is the list of
vocabulary terms whose count in `total_text.lower()` is at least 2,
in vocabulary order, each with its count. -/
def termCounts (l : List Article) : List (PyStr × Nat) :=
  ai_terms.filterMap (fun t =>
    let c := countOccs (pyLower t) (pyLower (totalText l))
    if 2 ≤ c then some (t, c) else none)

/-- The order of `sorted(term_counts.items(), key=lambda x: x[1],
reverse=True)`: descending by count. -/
def trendGE (a b : PyStr × Nat) : Prop := b.2 ≤ a.2

instance : DecidableRel trendGE := fun _ _ => inferInstanceAs (Decidable (_ ≤ _))

instance : IsTotal (PyStr × Nat) trendGE := ⟨fun a b => Nat.le_total b.2 a.2⟩

instance : IsTrans (PyStr × Nat) trendGE := ⟨fun _ _ _ h₁ h₂ => Nat.le_trans h₂ h₁⟩

/-- `f"{term} developments (mentioned {count} times)"` from
`chroma_db.py` line 189. -/
def formatTrend (p : PyStr × Nat) : PyStr :=
  p.1 ++ (" developments (mentioned ").toList ++ (Nat.repr p.2).toList ++ (" times)").toList

/-- `ChromaDBManager.detect_trends` (`chroma_db.py` lines 159-191): empty
input short-circuits to `[]`; otherwise the counted terms are sorted
descending by count (Python's `sorted` is stable, hence modelled by the
stable `List.insertionSort`), the top 3 are kept and formatted. -/
def detect_trends (l : List Article) : List PyStr :=
  if l = [] then []
  else ((List.insertionSort trendGE (termCounts l)).take 3).map formatTrend

/-- A parsed HTML document as seen by `_extract_article_text`
(`enhanced_content_fetcher.py` lines 294-337), abstracted to exactly the
queries the function makes of BeautifulSoup: `selectText sel` is
`soup.select_one(sel).get_text(separator=' ', strip=True)` (or `none` when
no element matches), `blockTexts` are the `get_text(strip=True)` texts of
all `p` and `div` elements in document order, and `paraTexts` those of all
`p` elements. -/
structure SoupDoc where
  selectText : PyStr → Option PyStr
  blockTexts : List PyStr
  paraTexts : List PyStr

/-- The `content_selectors` list of `_extract_article_text`
(`enhanced_content_fetcher.py` lines 297-308), in source order. -/
def content_selectors : List PyStr :=
  [("article").toList, (".article-content").toList, (".post-content").toList,
   (".entry-content").toList, (".content").toList, (".main-content").toList,
   ("main").toList, (".story-body").toList, (".article-body").toList,
   (".post-body").toList]

/-- Strategy 1 of `_extract_article_text`: the text of the first selector
whose element exists and yields more than 200 characters (a matching
element with a shorter text falls through to the next selector). -/
def firstLongSelector (doc : SoupDoc) : List PyStr → Option PyStr
  | [] => none
  | sel :: rest =>
    match doc.selectText sel with
    | some t => if 200 < t.length then some t else firstLongSelector doc rest
    | none => firstLongSelector doc rest

/-- The fallback string of `_extract_article_text`
(`enhanced_content_fetcher.py` line 337). -/
def sentinel : PyStr := ("No content extracted").toList

/-- `EnhancedContentFetcher._extract_article_text`
(`enhanced_content_fetcher.py` lines 294-337): tier i tries the common
selectors, tier ii joins all `p`/`div` texts longer than 50 characters and
returns the join if it exceeds 200 characters, tier iii joins all
paragraph texts and returns the join when it is nonempty (truthy), else
the sentinel. -/
def extract_article_text (doc : SoupDoc) : PyStr :=
  match firstLongSelector doc content_selectors with
  | some t => t
  | none =>
    let full := List.intercalate [' '] (doc.blockTexts.filter (fun t => 50 < t.length))
    if 200 < full.length then full
    else
      let para := List.intercalate [' '] doc.paraTexts
      if para ≠ [] then para else sentinel

-- Sanity checks on concrete inputs.
example :
    dedupByURL [] [⟨[], [], [], ('u').toString.toList⟩, ⟨('x').toString.toList, [], [], ('u').toString.toList⟩] =
      [⟨[], [], [], ('u').toString.toList⟩] := by decide
example :
    dedupByTitle [] [⟨("A sufficiently long title").toList, [], [], []⟩,
      ⟨("a SUFFICIENTLY long title").toList, [], [], []⟩, ⟨("short").toList, [], [], []⟩] =
      [⟨("A sufficiently long title").toList, [], [], []⟩] := by decide
example :
    detect_trends [⟨("GPT alpha").toList, ("GPT beta NLP").toList, [], []⟩,
      ⟨("GPT gamma").toList, ("delta").toList, [], []⟩] =
      [("GPT developments (mentioned 3 times)").toList] := by decide
example :
    extract_article_text ⟨fun _ => none, [List.replicate 60 'a'], [List.replicate 60 'a']⟩ =
      List.replicate 60 'a' := by decide
example : extract_article_text ⟨fun _ => none, [sentinel], [sentinel]⟩ = sentinel := by decide
example : (scoreArticle (⟨[], [], [], []⟩, none)).final_score = 5 := by decide
example :
    select_top_articles [(⟨[], [], [], []⟩, none)] 10 = [] := by decide
example :
    curate_articles [(⟨[], [], [], []⟩, some (("Quality: 2/10\nRelevance: 4/10").toList)),
      (⟨[], [], [], []⟩, none)] =
      [scoreArticle (⟨[], [], [], []⟩, none),
       scoreArticle (⟨[], [], [], []⟩, some (("Quality: 2/10\nRelevance: 4/10").toList))] := by
  decide

/-- Whether a reply line is recognized by the parser: after stripping, it
begins with one of the five exact-case field headers of
`_parse_quality_analysis`. -/
def recognizedAny (line0 : PyStr) : Bool :=
  let line := pyStrip line0
  (("Quality:").toList).isPrefixOf line || (("Relevance:").toList).isPrefixOf line ||
    (("Category:").toList).isPrefixOf line || (("Insights:").toList).isPrefixOf line ||
    (("Reason:").toList).isPrefixOf line

/-- Whether a reply line updates the `quality_score` field: it is a
recognized `Quality:` line whose value parses as an integer. -/
def setsQuality (line0 : PyStr) : Bool :=
  (("Quality:").toList).isPrefixOf (pyStrip line0) && (numericField (pyStrip line0)).isSome

/-- Whether a reply line updates the `relevance_score` field. -/
def setsRelevance (line0 : PyStr) : Bool :=
  (("Relevance:").toList).isPrefixOf (pyStrip line0) && (numericField (pyStrip line0)).isSome

/-- Whether a reply line updates the `category` field. -/
def setsCategory (line0 : PyStr) : Bool :=
  (("Category:").toList).isPrefixOf (pyStrip line0)

/-- Whether a reply line updates the `insights` field. -/
def setsInsights (line0 : PyStr) : Bool :=
  (("Insights:").toList).isPrefixOf (pyStrip line0)

/-- Whether a reply line updates the `reason` field. -/
def setsReason (line0 : PyStr) : Bool :=
  (("Reason:").toList).isPrefixOf (pyStrip line0)

/-- Two prefixes of the same list are comparable. -/
theorem isPrefixOf_comparable (p : PyStr) :
    ∀ (q s : PyStr), p.isPrefixOf s → q.isPrefixOf s →
      p.isPrefixOf q ∨ q.isPrefixOf p := by
  induction p with
  | nil => intro q s _ _; left; cases q <;> simp [List.isPrefixOf]
  | cons a p ih =>
    intro q s hp hq
    cases q with
    | nil => right; simp [List.isPrefixOf]
    | cons b q =>
      cases s with
      | nil => simp [List.isPrefixOf] at hp
      | cons c s =>
        simp only [List.isPrefixOf, Bool.and_eq_true, beq_iff_eq] at hp hq
        obtain ⟨rfl, hp⟩ := hp
        obtain ⟨rfl, hq⟩ := hq
        rcases ih q s hp hq with h | h
        · left; simp [List.isPrefixOf, h]
        · right; simp [List.isPrefixOf, h]

/-- The possible values of the `quality_score` field after one parser
iteration: unchanged, or a clamped parsed value. -/
theorem step_quality_cases (r : QualityAnalysis) (line : PyStr) :
    (step r line).quality_score = r.quality_score ∨
      ∃ n : Int, (step r line).quality_score = max 1 (min 10 n) := by
  unfold step
  dsimp only
  split
  · split
    · right; exact ⟨_, rfl⟩
    · left; rfl
  · split
    · split
      · left; rfl
      · left; rfl
    · split
      · left; rfl
      · split
        · left; rfl
        · split
          · left; rfl
          · left; rfl

/-- The possible values of the `relevance_score` field after one parser
iteration: unchanged, or a clamped parsed value. -/
theorem step_relevance_cases (r : QualityAnalysis) (line : PyStr) :
    (step r line).relevance_score = r.relevance_score ∨
      ∃ n : Int, (step r line).relevance_score = max 1 (min 10 n) := by
  unfold step
  dsimp only
  split
  · split
    · left; rfl
    · left; rfl
  · split
    · split
      · right; exact ⟨_, rfl⟩
      · left; rfl
    · split
      · left; rfl
      · split
        · left; rfl
        · split
          · left; rfl
          · left; rfl

/-- A clamped value is within the score range. -/
theorem clamp_bounds (n : Int) : 1 ≤ max 1 (min 10 n) ∧ max 1 (min 10 n) ≤ 10 :=
  ⟨le_max_left _ _, max_le (by norm_num) (min_le_left _ _)⟩

/-- Score bounds are invariant under the parser's line loop. -/
theorem foldl_step_bounds (lines : List PyStr) :
    ∀ r : QualityAnalysis,
      1 ≤ r.quality_score → r.quality_score ≤ 10 →
      1 ≤ r.relevance_score → r.relevance_score ≤ 10 →
      (1 ≤ (lines.foldl step r).quality_score ∧ (lines.foldl step r).quality_score ≤ 10) ∧
        (1 ≤ (lines.foldl step r).relevance_score ∧ (lines.foldl step r).relevance_score ≤ 10) := by
  induction lines with
  | nil => intro r h1 h2 h3 h4; exact ⟨⟨h1, h2⟩, ⟨h3, h4⟩⟩
  | cons line rest ih =>
    intro r h1 h2 h3 h4
    simp only [List.foldl_cons]
    have hq : 1 ≤ (step r line).quality_score ∧ (step r line).quality_score ≤ 10 := by
      rcases step_quality_cases r line with h | ⟨n, h⟩
      · rw [h]; exact ⟨h1, h2⟩
      · rw [h]; exact clamp_bounds n
    have hr : 1 ≤ (step r line).relevance_score ∧ (step r line).relevance_score ≤ 10 := by
      rcases step_relevance_cases r line with h | ⟨n, h⟩
      · rw [h]; exact ⟨h3, h4⟩
      · rw [h]; exact clamp_bounds n
    exact ih (step r line) hq.1 hq.2 hr.1 hr.2

/-- If `q` is a header of `s` and `p` is a header incomparable with `q`,
then `p` is not a header of `s`. -/
theorem distinct_headers {p q s : PyStr} (hpq : p.isPrefixOf q = false)
    (hqp : q.isPrefixOf p = false) (hq : q.isPrefixOf s = true) :
    p.isPrefixOf s = false := by
  by_contra h
  have hp : p.isPrefixOf s = true := by
    revert h; cases p.isPrefixOf s <;> simp
  rcases isPrefixOf_comparable p q s hp hq with h1 | h1
  · rw [hpq] at h1; exact Bool.false_ne_true h1
  · rw [hqp] at h1; exact Bool.false_ne_true h1

/-- A recognized `Quality:` line with a parseable value sets
`quality_score` to the clamped value. -/
theorem step_quality_set (r : QualityAnalysis) (line : PyStr) (n : Int)
    (hpre : (("Quality:").toList).isPrefixOf (pyStrip line) = true)
    (hn : numericField (pyStrip line) = some n) :
    (step r line).quality_score = max 1 (min 10 n) := by
  unfold step
  dsimp only
  rw [if_pos hpre, hn]

/-- A line that does not set `quality_score` leaves it unchanged. -/
theorem step_quality_not_set (r : QualityAnalysis) (line : PyStr)
    (h : setsQuality line = false) :
    (step r line).quality_score = r.quality_score := by
  unfold step
  dsimp only
  by_cases hpre : (("Quality:").toList).isPrefixOf (pyStrip line) = true
  · have hn : numericField (pyStrip line) = none := by
      unfold setsQuality at h
      rw [hpre] at h
      simpa [Option.isSome_iff_exists] using h
    rw [if_pos hpre, hn]
  · rw [if_neg hpre]
    split
    · split <;> rfl
    · split
      · rfl
      · split
        · rfl
        · split <;> rfl

/-- A recognized `Relevance:` line with a parseable value sets
`relevance_score` to the clamped value. -/
theorem step_relevance_set (r : QualityAnalysis) (line : PyStr) (n : Int)
    (hpre : (("Relevance:").toList).isPrefixOf (pyStrip line) = true)
    (hn : numericField (pyStrip line) = some n) :
    (step r line).relevance_score = max 1 (min 10 n) := by
  have hq : (("Quality:").toList).isPrefixOf (pyStrip line) = false :=
    distinct_headers (by decide) (by decide) hpre
  unfold step
  dsimp only
  rw [if_neg (by rw [hq]; exact Bool.false_ne_true), if_pos hpre, hn]

/-- A line that does not set `relevance_score` leaves it unchanged. -/
theorem step_relevance_not_set (r : QualityAnalysis) (line : PyStr)
    (h : setsRelevance line = false) :
    (step r line).relevance_score = r.relevance_score := by
  unfold step
  dsimp only
  by_cases hpre : (("Relevance:").toList).isPrefixOf (pyStrip line) = true
  · have hn : numericField (pyStrip line) = none := by
      unfold setsRelevance at h
      rw [hpre] at h
      simpa [Option.isSome_iff_exists] using h
    have hq : (("Quality:").toList).isPrefixOf (pyStrip line) = false :=
      distinct_headers (by decide) (by decide) hpre
    rw [if_neg (by rw [hq]; exact Bool.false_ne_true), if_pos hpre, hn]
  · by_cases hQ : (("Quality:").toList).isPrefixOf (pyStrip line) = true
    · rw [if_pos hQ]
      split <;> rfl
    · rw [if_neg hQ, if_neg hpre]
      by_cases hC : (("Category:").toList).isPrefixOf (pyStrip line) = true
      · rw [if_pos hC]
      · rw [if_neg hC]
        by_cases hI : (("Insights:").toList).isPrefixOf (pyStrip line) = true
        · rw [if_pos hI]
        · rw [if_neg hI]
          by_cases hR : (("Reason:").toList).isPrefixOf (pyStrip line) = true
          · rw [if_pos hR]
          · rw [if_neg hR]

/-- A recognized `Category:` line sets `category` to the text value. -/
theorem step_category_set (r : QualityAnalysis) (line : PyStr)
    (hpre : setsCategory line = true) :
    (step r line).category = textField (pyStrip line) := by
  unfold setsCategory at hpre
  have hq : (("Quality:").toList).isPrefixOf (pyStrip line) = false :=
    distinct_headers (by decide) (by decide) hpre
  have hr : (("Relevance:").toList).isPrefixOf (pyStrip line) = false :=
    distinct_headers (by decide) (by decide) hpre
  unfold step
  dsimp only
  rw [if_neg (by rw [hq]; exact Bool.false_ne_true),
    if_neg (by rw [hr]; exact Bool.false_ne_true), if_pos hpre]

/-- A line that does not set `category` leaves it unchanged. -/
theorem step_category_not_set (r : QualityAnalysis) (line : PyStr)
    (h : setsCategory line = false) :
    (step r line).category = r.category := by
  unfold setsCategory at h
  unfold step
  dsimp only
  by_cases hQ : (("Quality:").toList).isPrefixOf (pyStrip line) = true
  · rw [if_pos hQ]
    split <;> rfl
  · rw [if_neg hQ]
    by_cases hRel : (("Relevance:").toList).isPrefixOf (pyStrip line) = true
    · rw [if_pos hRel]
      split <;> rfl
    · rw [if_neg hRel, if_neg (by rw [h]; exact Bool.false_ne_true)]
      by_cases hI : (("Insights:").toList).isPrefixOf (pyStrip line) = true
      · rw [if_pos hI]
      · rw [if_neg hI]
        by_cases hR : (("Reason:").toList).isPrefixOf (pyStrip line) = true
        · rw [if_pos hR]
        · rw [if_neg hR]

/-- A recognized `Insights:` line sets `insights` to the singleton text
value. -/
theorem step_insights_set (r : QualityAnalysis) (line : PyStr)
    (hpre : setsInsights line = true) :
    (step r line).insights = [textField (pyStrip line)] := by
  unfold setsInsights at hpre
  have hq : (("Quality:").toList).isPrefixOf (pyStrip line) = false :=
    distinct_headers (by decide) (by decide) hpre
  have hr : (("Relevance:").toList).isPrefixOf (pyStrip line) = false :=
    distinct_headers (by decide) (by decide) hpre
  have hc : (("Category:").toList).isPrefixOf (pyStrip line) = false :=
    distinct_headers (by decide) (by decide) hpre
  unfold step
  dsimp only
  rw [if_neg (by rw [hq]; exact Bool.false_ne_true),
    if_neg (by rw [hr]; exact Bool.false_ne_true),
    if_neg (by rw [hc]; exact Bool.false_ne_true), if_pos hpre]

/-- A line that does not set `insights` leaves it unchanged. -/
theorem step_insights_not_set (r : QualityAnalysis) (line : PyStr)
    (h : setsInsights line = false) :
    (step r line).insights = r.insights := by
  unfold setsInsights at h
  unfold step
  dsimp only
  by_cases hQ : (("Quality:").toList).isPrefixOf (pyStrip line) = true
  · rw [if_pos hQ]
    split <;> rfl
  · rw [if_neg hQ]
    by_cases hRel : (("Relevance:").toList).isPrefixOf (pyStrip line) = true
    · rw [if_pos hRel]
      split <;> rfl
    · rw [if_neg hRel]
      by_cases hC : (("Category:").toList).isPrefixOf (pyStrip line) = true
      · rw [if_pos hC]
      · rw [if_neg hC, if_neg (by rw [h]; exact Bool.false_ne_true)]
        by_cases hR : (("Reason:").toList).isPrefixOf (pyStrip line) = true
        · rw [if_pos hR]
        · rw [if_neg hR]

/-- A recognized `Reason:` line sets `reason` to the text value. -/
theorem step_reason_set (r : QualityAnalysis) (line : PyStr)
    (hpre : setsReason line = true) :
    (step r line).reason = textField (pyStrip line) := by
  unfold setsReason at hpre
  have hq : (("Quality:").toList).isPrefixOf (pyStrip line) = false :=
    distinct_headers (by decide) (by decide) hpre
  have hr : (("Relevance:").toList).isPrefixOf (pyStrip line) = false :=
    distinct_headers (by decide) (by decide) hpre
  have hc : (("Category:").toList).isPrefixOf (pyStrip line) = false :=
    distinct_headers (by decide) (by decide) hpre
  have hi : (("Insights:").toList).isPrefixOf (pyStrip line) = false :=
    distinct_headers (by decide) (by decide) hpre
  unfold step
  dsimp only
  rw [if_neg (by rw [hq]; exact Bool.false_ne_true),
    if_neg (by rw [hr]; exact Bool.false_ne_true),
    if_neg (by rw [hc]; exact Bool.false_ne_true),
    if_neg (by rw [hi]; exact Bool.false_ne_true), if_pos hpre]

/-- A line that does not set `reason` leaves it unchanged. -/
theorem step_reason_not_set (r : QualityAnalysis) (line : PyStr)
    (h : setsReason line = false) :
    (step r line).reason = r.reason := by
  unfold setsReason at h
  unfold step
  dsimp only
  by_cases hQ : (("Quality:").toList).isPrefixOf (pyStrip line) = true
  · rw [if_pos hQ]
    split <;> rfl
  · rw [if_neg hQ]
    by_cases hRel : (("Relevance:").toList).isPrefixOf (pyStrip line) = true
    · rw [if_pos hRel]
      split <;> rfl
    · rw [if_neg hRel]
      by_cases hC : (("Category:").toList).isPrefixOf (pyStrip line) = true
      · rw [if_pos hC]
      · rw [if_neg hC]
        by_cases hI : (("Insights:").toList).isPrefixOf (pyStrip line) = true
        · rw [if_pos hI]
        · rw [if_neg hI, if_neg (by rw [h]; exact Bool.false_ne_true)]

/-- C1: for every article and every reply of the generation service
(including garbage), the quality and relevance scores produced by
`analyze_article_quality` / `_parse_quality_analysis` — and hence attached
to the resulting scored article — are integers in [1, 10]; a recognized
numeric field is clamped to [1, 10] on a successful parse, and a line that
does not successfully set the field leaves it unchanged (so an
unrecognized or unparseable field stays at the default 5). -/
theorem scores_always_in_one_to_ten :
    (∀ resp : Option PyStr,
      1 ≤ (analyze_article_quality resp).quality_score ∧
        (analyze_article_quality resp).quality_score ≤ 10 ∧
        1 ≤ (analyze_article_quality resp).relevance_score ∧
        (analyze_article_quality resp).relevance_score ≤ 10) ∧
    (∀ p : Article × Option PyStr,
      1 ≤ (scoreArticle p).analysis.quality_score ∧
        (scoreArticle p).analysis.quality_score ≤ 10 ∧
        1 ≤ (scoreArticle p).analysis.relevance_score ∧
        (scoreArticle p).analysis.relevance_score ≤ 10) ∧
    (∀ (r : QualityAnalysis) (line : PyStr) (n : Int),
      (("Quality:").toList).isPrefixOf (pyStrip line) = true →
      numericField (pyStrip line) = some n →
      (step r line).quality_score = max 1 (min 10 n)) ∧
    (∀ (r : QualityAnalysis) (line : PyStr) (n : Int),
      (("Relevance:").toList).isPrefixOf (pyStrip line) = true →
      numericField (pyStrip line) = some n →
      (step r line).relevance_score = max 1 (min 10 n)) ∧
    (∀ (r : QualityAnalysis) (line : PyStr),
      setsQuality line = false → (step r line).quality_score = r.quality_score) ∧
    (∀ (r : QualityAnalysis) (line : PyStr),
      setsRelevance line = false → (step r line).relevance_score = r.relevance_score) := by
  have key : ∀ resp : Option PyStr,
      1 ≤ (analyze_article_quality resp).quality_score ∧
        (analyze_article_quality resp).quality_score ≤ 10 ∧
        1 ≤ (analyze_article_quality resp).relevance_score ∧
        (analyze_article_quality resp).relevance_score ≤ 10 := by
    intro resp
    match resp with
    | none => exact ⟨by decide, by decide, by decide, by decide⟩
    | some r =>
      by_cases hr : r = []
      · simp only [analyze_article_quality, if_pos hr]
        exact ⟨by decide, by decide, by decide, by decide⟩
      · simp only [analyze_article_quality, if_neg hr]
        have h := foldl_step_bounds (linesOf r) (initResult r)
          (show (1 : Int) ≤ 5 by decide) (show (5 : Int) ≤ 10 by decide)
          (show (1 : Int) ≤ 5 by decide) (show (5 : Int) ≤ 10 by decide)
        exact ⟨h.1.1, h.1.2, h.2.1, h.2.2⟩
  refine ⟨key, fun p => key p.2, ?_, ?_, ?_, ?_⟩
  · exact fun r line n h1 h2 => step_quality_set r line n h1 h2
  · exact fun r line n h1 h2 => step_relevance_set r line n h1 h2
  · exact fun r line h => step_quality_not_set r line h
  · exact fun r line h => step_relevance_not_set r line h

/-- Witness for `scores_always_in_one_to_ten` at concrete inputs: a
garbage reply keeps the scores in range, and a concrete `Quality: 8/10`
line is clamped to 8. -/
theorem scores_always_in_one_to_ten_witness :
    (1 ≤ (analyze_article_quality (some (("total garbage &&&").toList))).quality_score ∧
      (analyze_article_quality (some (("total garbage &&&").toList))).quality_score ≤ 10 ∧
      1 ≤ (analyze_article_quality (some (("total garbage &&&").toList))).relevance_score ∧
      (analyze_article_quality (some (("total garbage &&&").toList))).relevance_score ≤ 10) ∧
    (step (initResult []) (("Quality: 8/10").toList)).quality_score = max 1 (min 10 8) :=
  ⟨scores_always_in_one_to_ten.1 (some (("total garbage &&&").toList)),
    scores_always_in_one_to_ten.2.2.1 (initResult []) (("Quality: 8/10").toList) 8
      (by decide) (by decide)⟩

/-- An unrecognized line leaves the whole result unchanged. -/
theorem step_unrecognized (r : QualityAnalysis) (line : PyStr)
    (h : recognizedAny line = false) : step r line = r := by
  unfold recognizedAny at h
  dsimp only at h
  simp only [Bool.or_eq_false_iff] at h
  obtain ⟨⟨⟨⟨hQ, hRel⟩, hC⟩, hI⟩, hR⟩ := h
  unfold step
  dsimp only
  rw [if_neg (by rw [hQ]; exact Bool.false_ne_true),
    if_neg (by rw [hRel]; exact Bool.false_ne_true),
    if_neg (by rw [hC]; exact Bool.false_ne_true),
    if_neg (by rw [hI]; exact Bool.false_ne_true),
    if_neg (by rw [hR]; exact Bool.false_ne_true)]

/-- A run of unrecognized lines is a no-op for the parser fold. -/
theorem foldl_step_id (lines : List PyStr) :
    ∀ r0 : QualityAnalysis, lines.all (fun l => !recognizedAny l) = true →
      lines.foldl step r0 = r0 := by
  induction lines with
  | nil => intro r0 _; rfl
  | cons line rest ih =>
    intro r0 h
    rw [List.all_cons, Bool.and_eq_true] at h
    rw [List.foldl_cons, step_unrecognized r0 line (by simpa using h.1)]
    exact ih r0 h.2

/-- A reply none of whose lines is recognized parses to the default
result. -/
theorem parse_unrecognized_eq (r : PyStr)
    (h : (linesOf r).all (fun l => !recognizedAny l) = true) :
    parse_quality_analysis r = initResult r :=
  foldl_step_id (linesOf r) (initResult r) h

/-- A failed generation call yields the deterministic fallback record with
final score 5. -/
theorem scoreArticle_none (art : Article) :
    scoreArticle (art, none) =
      { article := art, analysis := fallbackAnalysis, final_score := 5 } :=
  congrArg
    (fun q : ℚ => ({ article := art, analysis := fallbackAnalysis, final_score := q } :
      ScoredArticle))
    (show mkRat (fallbackAnalysis.quality_score + fallbackAnalysis.relevance_score) 2 = 5 by
      decide)

/-- C2: a failed generation call (no reply) yields the deterministic
fallback record — quality 5, relevance 5, category "AI/ML", one generic
insight, reason "LLM analysis failed" — with `final_score = 5.0`; a reply
none of whose lines carries a known field header parses to quality 5 and
relevance 5, hence also `final_score = 5.0`; and curation (which is a
total function, so it cannot raise) contains the fallback record for every
failed article of its input. -/
theorem generation_failure_yields_neutral_fallback :
    (∀ art : Article,
      scoreArticle (art, none) =
        { article := art, analysis := fallbackAnalysis, final_score := 5 } ∧
      fallbackAnalysis.quality_score = 5 ∧
      fallbackAnalysis.relevance_score = 5 ∧
      fallbackAnalysis.category = ("AI/ML").toList ∧
      fallbackAnalysis.insights = [("Unable to analyze with LLM").toList] ∧
      fallbackAnalysis.reason = ("LLM analysis failed").toList) ∧
    (∀ r : PyStr, (linesOf r).all (fun l => !recognizedAny l) = true →
      (parse_quality_analysis r).quality_score = 5 ∧
        (parse_quality_analysis r).relevance_score = 5) ∧
    (∀ (r : PyStr) (art : Article), (linesOf r).all (fun l => !recognizedAny l) = true →
      (scoreArticle (art, some r)).final_score = 5) ∧
    (∀ (l : List (Article × Option PyStr)) (art : Article), (art, none) ∈ l →
      ({ article := art, analysis := fallbackAnalysis, final_score := 5 } : ScoredArticle) ∈
        curate_articles l) := by
  have hscores : ∀ r : PyStr, (linesOf r).all (fun l => !recognizedAny l) = true →
      (analyze_article_quality (some r)).quality_score = 5 ∧
        (analyze_article_quality (some r)).relevance_score = 5 := by
    intro r h
    by_cases hr : r = []
    · simp only [analyze_article_quality, if_pos hr]
      exact ⟨rfl, rfl⟩
    · simp only [analyze_article_quality, if_neg hr, parse_unrecognized_eq r h]
      exact ⟨rfl, rfl⟩
  refine ⟨fun art => ⟨scoreArticle_none art, rfl, rfl, rfl, rfl, rfl⟩, ?_, ?_, ?_⟩
  · intro r h
    by_cases hr : r = []
    · rw [hr] at h ⊢
      exact ⟨by decide, by decide⟩
    · have := hscores r h
      simpa only [analyze_article_quality, if_neg hr] using this
  · intro r art h
    show mkRat ((analyze_article_quality (some r)).quality_score +
      (analyze_article_quality (some r)).relevance_score) 2 = 5
    rw [(hscores r h).1, (hscores r h).2]
    decide
  · intro l art hmem
    rw [← scoreArticle_none art]
    unfold curate_articles
    rw [List.mem_insertionSort]
    exact List.mem_map_of_mem _ hmem

/-- Witness for `generation_failure_yields_neutral_fallback` at concrete
inputs: a reply with no recognized header line keeps both scores at 5 and
gives final score 5, and a failed call puts the fallback record into the
curated list. -/
theorem generation_failure_yields_neutral_fallback_witness :
    ((parse_quality_analysis (("hello\nworld").toList)).quality_score = 5 ∧
      (parse_quality_analysis (("hello\nworld").toList)).relevance_score = 5) ∧
    (scoreArticle (⟨[], [], [], []⟩, some (("hello\nworld").toList))).final_score = 5 ∧
    ({ article := ⟨[], [], [], []⟩, analysis := fallbackAnalysis, final_score := 5 } :
        ScoredArticle) ∈ curate_articles [(⟨[], [], [], []⟩, none)] :=
  ⟨generation_failure_yields_neutral_fallback.2.1 (("hello\nworld").toList) (by decide),
    generation_failure_yields_neutral_fallback.2.2.1 (("hello\nworld").toList) ⟨[], [], [], []⟩
      (by decide),
    generation_failure_yields_neutral_fallback.2.2.2 [(⟨[], [], [], []⟩, none)] ⟨[], [], [], []⟩
      (List.mem_singleton.mpr rfl)⟩

/-- C3: every curated article carries
`final_score = (quality_score + relevance_score) / 2`; `curate_articles`
returns exactly the scored input articles (a permutation of them), sorted
descending by `final_score`, and the sort is stable: a pair of scored
articles with equal final scores that occurs in input order survives in
that order.  `select_top_articles` keeps only articles with
`final_score ≥ 6.0`, returns at most the requested count, and its output
is a subsequence of the curated (sorted) list, hence in sorted order. -/
theorem curate_sorts_by_final_score_and_select_filters :
    (∀ p : Article × Option PyStr,
      (scoreArticle p).final_score =
        (((analyze_article_quality p.2).quality_score : ℚ) +
          ((analyze_article_quality p.2).relevance_score : ℚ)) / 2) ∧
    (∀ l : List (Article × Option PyStr),
      List.Perm (curate_articles l) (l.map scoreArticle)) ∧
    (∀ l : List (Article × Option PyStr), (curate_articles l).Sorted scoreGE) ∧
    (∀ (l : List (Article × Option PyStr)) (a b : ScoredArticle),
      List.Sublist [a, b] (l.map scoreArticle) → a.final_score = b.final_score →
      List.Sublist [a, b] (curate_articles l)) ∧
    (∀ (l : List (Article × Option PyStr)) (count : Nat),
      ∀ a ∈ select_top_articles l count, 6 ≤ a.final_score) ∧
    (∀ (l : List (Article × Option PyStr)) (count : Nat),
      (select_top_articles l count).length ≤ count) ∧
    (∀ (l : List (Article × Option PyStr)) (count : Nat),
      List.Sublist (select_top_articles l count) (curate_articles l)) := by
  refine ⟨?_, ?_, ?_, ?_, ?_, ?_, ?_⟩
  · intro p
    show mkRat ((analyze_article_quality p.2).quality_score +
      (analyze_article_quality p.2).relevance_score) 2 = _
    rw [Rat.mkRat_eq_div]
    push_cast
    ring
  · intro l
    exact List.perm_insertionSort scoreGE (l.map scoreArticle)
  · intro l
    exact List.sorted_insertionSort scoreGE (l.map scoreArticle)
  · intro l a b hsub heq
    exact List.pair_sublist_insertionSort (le_of_eq heq.symm) hsub
  · intro l count a ha
    have h1 : a ∈ (curate_articles l).filter (fun a => 6 ≤ a.final_score) :=
      List.take_subset count _ ha
    exact of_decide_eq_true (List.mem_filter.mp h1).2
  · intro l count
    exact (List.length_take _ _).trans_le (min_le_left _ _)
  · intro l count
    exact (List.take_sublist _ _).trans (List.filter_sublist _)

/-- Witness for `curate_sorts_by_final_score_and_select_filters` at a
concrete input: two distinct articles with equal final scores keep their
input order in the curated output. -/
theorem curate_sorts_witness :
    List.Sublist
      [scoreArticle (⟨[], [], [], []⟩, none), scoreArticle (⟨('b') :: [], [], [], []⟩, none)]
      (curate_articles [(⟨[], [], [], []⟩, none), (⟨('b') :: [], [], [], []⟩, none)]) :=
  curate_sorts_by_final_score_and_select_filters.2.2.2.1
    [(⟨[], [], [], []⟩, none), (⟨('b') :: [], [], [], []⟩, none)]
    (scoreArticle (⟨[], [], [], []⟩, none)) (scoreArticle (⟨('b') :: [], [], [], []⟩, none))
    (List.Sublist.refl _) rfl

/-- URL deduplication returns a subsequence of its input. -/
theorem dedupURL_sublist (l : List Article) :
    ∀ seen : List PyStr, List.Sublist (dedupByURL seen l) l := by
  induction l with
  | nil => intro seen; simp [dedupByURL]
  | cons a rest ih =>
    intro seen
    simp only [dedupByURL]
    by_cases h : a.url ≠ [] ∧ a.url ∉ seen
    · rw [if_pos h]
      exact List.Sublist.cons₂ a (ih (a.url :: seen))
    · rw [if_neg h]
      exact List.Sublist.cons a (ih seen)

/-- No URL surviving URL deduplication was in the seen set. -/
theorem dedupURL_not_seen (l : List Article) :
    ∀ (seen : List PyStr) (u : PyStr),
      u ∈ (dedupByURL seen l).map (fun a => a.url) → u ∉ seen := by
  induction l with
  | nil => intro seen u hu; simp [dedupByURL] at hu
  | cons a rest ih =>
    intro seen u hu
    simp only [dedupByURL] at hu
    by_cases h : a.url ≠ [] ∧ a.url ∉ seen
    · rw [if_pos h] at hu
      rcases List.mem_cons.mp hu with rfl | hu
    -- the surviving head is exactly `a`, whose URL is not in `seen`
      · exact h.2
      · intro hseen
        exact ih (a.url :: seen) u hu (List.mem_cons_of_mem _ hseen)
    · rw [if_neg h] at hu
      exact ih seen u hu

/-- The URLs surviving URL deduplication are pairwise distinct. -/
theorem dedupURL_nodup (l : List Article) :
    ∀ seen : List PyStr, ((dedupByURL seen l).map (fun a => a.url)).Nodup := by
  induction l with
  | nil => intro seen; simp [dedupByURL]
  | cons a rest ih =>
    intro seen
    simp only [dedupByURL]
    by_cases h : a.url ≠ [] ∧ a.url ∉ seen
    · rw [if_pos h]
      refine List.nodup_cons.mpr ⟨?_, ih (a.url :: seen)⟩
      intro hmem
      exact dedupURL_not_seen rest (a.url :: seen) a.url hmem (List.mem_cons_self _ _)
    · rw [if_neg h]
      exact ih seen

/-- For nonempty URLs, the element found for a URL after deduplication is
the first input element with that URL. -/
theorem dedupURL_find (l : List Article) :
    ∀ seen : List PyStr, (∀ a ∈ l, a.url ≠ []) → ∀ u : PyStr,
      (u ∈ seen → (dedupByURL seen l).find? (fun a => a.url == u) = none) ∧
      (u ∉ seen → (dedupByURL seen l).find? (fun a => a.url == u) =
        l.find? (fun a => a.url == u)) := by
  induction l with
  | nil => intro seen _ u; exact ⟨fun _ => rfl, fun _ => rfl⟩
  | cons a rest ih =>
    intro seen hl u
    have ha : a.url ≠ [] := hl a (List.mem_cons_self a rest)
    have hl' : ∀ b ∈ rest, b.url ≠ [] := fun b hb => hl b (List.mem_cons_of_mem a hb)
    simp only [dedupByURL]
    by_cases hmem : a.url ∈ seen
    · rw [if_neg (fun hc => hc.2 hmem)]
      refine ⟨fun hu => (ih seen hl' u).1 hu, fun hu => ?_⟩
      have hne : (a.url == u) = false := by
        simp only [beq_eq_false_iff_ne, ne_eq]
        intro hequ
        exact hu (hequ ▸ hmem)
      rw [(ih seen hl' u).2 hu]
      simp only [List.find?_cons, hne]
    · rw [if_pos ⟨ha, hmem⟩]
      constructor
      · intro hu
        have hne : (a.url == u) = false := by
          simp only [beq_eq_false_iff_ne, ne_eq]
          intro hequ
          exact hmem (hequ ▸ hu)
        simp only [List.find?_cons, hne]
        exact (ih (a.url :: seen) hl' u).1 (List.mem_cons_of_mem _ hu)
      · intro hu
        by_cases hequ : a.url = u
        · have hpos : (a.url == u) = true := by simpa using hequ
          simp only [List.find?_cons, hpos]
        · have hne : (a.url == u) = false := by simpa using hequ
          simp only [List.find?_cons, hne]
          exact (ih (a.url :: seen) hl' u).2 (by
            simp only [List.mem_cons]
            rintro (rfl | hu2)
            · exact hequ rfl
            · exact hu hu2)

/-- C4: on candidates with nonempty URLs, the URL-deduplication step of
`extract_from_website` returns a subsequence of the input (so of length at
most the input's and in input order), with pairwise distinct URLs, and for
every URL the element it keeps is exactly the first input occurrence of
that URL. -/
theorem url_dedup_keeps_first_occurrence (l : List Article)
    (hl : ∀ a ∈ l, a.url ≠ []) :
    List.Sublist (dedupByURL [] l) l ∧
    (dedupByURL [] l).length ≤ l.length ∧
    ((dedupByURL [] l).map (fun a => a.url)).Nodup ∧
    (∀ u : PyStr, (dedupByURL [] l).find? (fun a => a.url == u) =
      l.find? (fun a => a.url == u)) :=
  ⟨dedupURL_sublist l [],
    (dedupURL_sublist l []).length_le,
    dedupURL_nodup l [],
    fun u => (dedupURL_find l [] hl u).2 (List.not_mem_nil u)⟩

/-- Witness for `url_dedup_keeps_first_occurrence` at a concrete input
with a duplicated URL. -/
theorem url_dedup_keeps_first_occurrence_witness :
    ((dedupByURL []
        [⟨[], [], [], ("u").toList⟩, ⟨("x").toList, [], [], ("u").toList⟩,
          ⟨[], [], [], ("v").toList⟩]).map (fun a => a.url)).Nodup ∧
    (dedupByURL []
        [⟨[], [], [], ("u").toList⟩, ⟨("x").toList, [], [], ("u").toList⟩,
          ⟨[], [], [], ("v").toList⟩]).find? (fun a => a.url == ("u").toList) =
      [⟨[], [], [], ("u").toList⟩, ⟨("x").toList, [], [], ("u").toList⟩,
        ⟨[], [], [], ("v").toList⟩].find? (fun a => a.url == ("u").toList) :=
  ⟨(url_dedup_keeps_first_occurrence _ (by decide)).2.2.1,
    (url_dedup_keeps_first_occurrence _ (by decide)).2.2.2 (("u").toList)⟩

/-- Title deduplication returns a subsequence of its input. -/
theorem dedupTitle_sublist (l : List Article) :
    ∀ seen : List PyStr, List.Sublist (dedupByTitle seen l) l := by
  induction l with
  | nil => intro seen; simp [dedupByTitle]
  | cons a rest ih =>
    intro seen
    simp only [dedupByTitle]
    by_cases h : pyLower a.title ∉ seen ∧ 15 < (pyLower a.title).length
    · rw [if_pos h]
      exact List.Sublist.cons₂ a (ih (pyLower a.title :: seen))
    · rw [if_neg h]
      exact List.Sublist.cons a (ih seen)

/-- Every article surviving title deduplication has a long title whose
lower-casing is not in the seen set. -/
theorem dedupTitle_long (l : List Article) :
    ∀ (seen : List PyStr) (a : Article), a ∈ dedupByTitle seen l →
      15 < (pyLower a.title).length ∧ pyLower a.title ∉ seen := by
  induction l with
  | nil => intro seen a ha; simp [dedupByTitle] at ha
  | cons b rest ih =>
    intro seen a ha
    simp only [dedupByTitle] at ha
    by_cases h : pyLower b.title ∉ seen ∧ 15 < (pyLower b.title).length
    · rw [if_pos h] at ha
      rcases List.mem_cons.mp ha with rfl | ha
      · exact ⟨h.2, h.1⟩
      · have := ih (pyLower b.title :: seen) a ha
        exact ⟨this.1, fun hs => this.2 (List.mem_cons_of_mem _ hs)⟩
    · rw [if_neg h] at ha
      exact ih seen a ha

/-- The lower-cased titles surviving title deduplication are pairwise
distinct. -/
theorem dedupTitle_nodup (l : List Article) :
    ∀ seen : List PyStr, ((dedupByTitle seen l).map (fun a => pyLower a.title)).Nodup := by
  induction l with
  | nil => intro seen; simp [dedupByTitle]
  | cons a rest ih =>
    intro seen
    simp only [dedupByTitle]
    by_cases h : pyLower a.title ∉ seen ∧ 15 < (pyLower a.title).length
    · rw [if_pos h]
      refine List.nodup_cons.mpr ⟨?_, ih (pyLower a.title :: seen)⟩
      intro hmem
      rcases List.mem_map.mp hmem with ⟨b, hb, hbt⟩
      exact (dedupTitle_long rest (pyLower a.title :: seen) b hb).2
        (hbt ▸ List.mem_cons_self _ _)
    · rw [if_neg h]
      exact ih seen

/-- For a long key, the element found for a lower-cased title after
deduplication is the first input element with that lower-cased title. -/
theorem dedupTitle_find (l : List Article) :
    ∀ (seen : List PyStr) (u : PyStr), 15 < u.length →
      (u ∈ seen → (dedupByTitle seen l).find? (fun a => pyLower a.title == u) = none) ∧
      (u ∉ seen → (dedupByTitle seen l).find? (fun a => pyLower a.title == u) =
        l.find? (fun a => pyLower a.title == u)) := by
  induction l with
  | nil => intro seen u _; exact ⟨fun _ => rfl, fun _ => rfl⟩
  | cons a rest ih =>
    intro seen u hu15
    simp only [dedupByTitle]
    by_cases h : pyLower a.title ∉ seen ∧ 15 < (pyLower a.title).length
    · rw [if_pos h]
      constructor
      · intro hu
        have hne : (pyLower a.title == u) = false := by
          simp only [beq_eq_false_iff_ne, ne_eq]
          intro hequ
          exact h.1 (hequ ▸ hu)
        simp only [List.find?_cons, hne]
        exact (ih (pyLower a.title :: seen) u hu15).1 (List.mem_cons_of_mem _ hu)
      · intro hu
        by_cases hequ : pyLower a.title = u
        · have hpos : (pyLower a.title == u) = true := by simpa using hequ
          simp only [List.find?_cons, hpos]
        · have hne : (pyLower a.title == u) = false := by simpa using hequ
          simp only [List.find?_cons, hne]
          exact (ih (pyLower a.title :: seen) u hu15).2 (by
            simp only [List.mem_cons]
            rintro (rfl | hu2)
            · exact hequ rfl
            · exact hu hu2)
    · rw [if_neg h]
      constructor
      · intro hu
        exact (ih seen u hu15).1 hu
      · intro hu
        have hne2 : pyLower a.title ≠ u := by
          rcases not_and_or.mp h with h1 | h2
          · intro hequ
            exact hu (hequ ▸ not_not.mp h1)
          · intro hequ
            exact h2 (hequ ▸ hu15)
        have hneb : (pyLower a.title == u) = false := by simpa using hne2
        rw [(ih seen u hu15).2 hu]
        simp only [List.find?_cons, hneb]

/-- A list of articles with long, pairwise-distinct, unseen lower-cased
titles passes through title deduplication unchanged. -/
theorem dedupTitle_id (l : List Article) :
    ∀ seen : List PyStr,
      (∀ a ∈ l, 15 < (pyLower a.title).length ∧ pyLower a.title ∉ seen) →
      (l.map (fun a => pyLower a.title)).Nodup →
      dedupByTitle seen l = l := by
  induction l with
  | nil => intro seen _ _; rfl
  | cons a rest ih =>
    intro seen h hnd
    have ha := h a (List.mem_cons_self a rest)
    have hnd2 : (∀ x ∈ rest, ¬pyLower x.title = pyLower a.title) ∧
        (rest.map (fun b => pyLower b.title)).Nodup := by simpa using hnd
    have hnd' : (pyLower a.title ∉ rest.map (fun b => pyLower b.title)) ∧
        (rest.map (fun b => pyLower b.title)).Nodup := by
      refine ⟨fun hmem => ?_, hnd2.2⟩
      rcases List.mem_map.mp hmem with ⟨b, hb, hbt⟩
      exact hnd2.1 b hb hbt
    simp only [dedupByTitle]
    rw [if_pos ⟨ha.2, ha.1⟩]
    congr 1
    apply ih
    · intro b hb
      refine ⟨(h b (List.mem_cons_of_mem a hb)).1, ?_⟩
      simp only [List.mem_cons]
      rintro (heq | hseen)
      · exact hnd'.1 (heq ▸ List.mem_map_of_mem _ hb)
      · exact (h b (List.mem_cons_of_mem a hb)).2 hseen
    · exact hnd'.2

/-- Counterexample to C5 as stated: an article whose title has length at
most 15 (here the 10-character title of the first list element) is not
kept as-is by the title-deduplication pass — the pass drops it, returning
the empty list. -/
theorem short_title_dropped_counterexample :
    dedupByTitle [] [⟨("Short news").toList, [], [], []⟩] = [] ∧
    dedupByTitle [] [⟨("Short news").toList, [], [], []⟩] ≠
      [⟨("Short news").toList, [], [], []⟩] := by decide

/-- C5 (amended): the title-deduplication pass keeps only articles whose
title is longer than 15 characters — an article with a title of length at
most 15 is dropped, not kept — and among the long-titled articles the
first occurrence of each case-insensitive title wins, later duplicates
are removed, and input order is preserved (the output is a subsequence of
the input). -/
theorem title_dedup_long_titles_first_wins (l : List Article) :
    List.Sublist (dedupByTitle [] l) l ∧
    (∀ a ∈ dedupByTitle [] l, 15 < (pyLower a.title).length) ∧
    ((dedupByTitle [] l).map (fun a => pyLower a.title)).Nodup ∧
    (∀ u : PyStr, 15 < u.length →
      (dedupByTitle [] l).find? (fun a => pyLower a.title == u) =
        l.find? (fun a => pyLower a.title == u)) :=
  ⟨dedupTitle_sublist l [],
    fun a ha => (dedupTitle_long l [] a ha).1,
    dedupTitle_nodup l [],
    fun u hu => (dedupTitle_find l [] u hu).2 (List.not_mem_nil u)⟩

/-- Witness for `title_dedup_long_titles_first_wins` at a concrete input:
two case-insensitive duplicates of a long title and one short title; the
element found for the duplicated key is the first input occurrence. -/
theorem title_dedup_long_titles_first_wins_witness :
    (dedupByTitle []
        [⟨("A Sufficiently Long Title!").toList, [], [], []⟩,
          ⟨("a sufficiently long title!").toList, [], [], []⟩,
          ⟨("short").toList, [], [], []⟩]).find?
        (fun a => pyLower a.title == ("a sufficiently long title!").toList) =
      [⟨("A Sufficiently Long Title!").toList, [], [], []⟩,
        ⟨("a sufficiently long title!").toList, [], [], []⟩,
        ⟨("short").toList, [], [], []⟩].find?
        (fun a => pyLower a.title == ("a sufficiently long title!").toList) :=
  (title_dedup_long_titles_first_wins
      [⟨("A Sufficiently Long Title!").toList, [], [], []⟩,
        ⟨("a sufficiently long title!").toList, [], [], []⟩,
        ⟨("short").toList, [], [], []⟩]).2.2.2
    (("a sufficiently long title!").toList) (by decide)

/-- C9: the title-deduplication pass is idempotent — applied to its own
output it returns that output unchanged (every surviving article survives
again, in the same order). -/
theorem title_dedup_idempotent (l : List Article) :
    dedupByTitle [] (dedupByTitle [] l) = dedupByTitle [] l := by
  apply dedupTitle_id
  · intro a ha
    exact ⟨(dedupTitle_long l [] a ha).1, List.not_mem_nil _⟩
  · exact dedupTitle_nodup l []

/-- Counterexample to C6 as stated: the parser matches field headers
case-sensitively, not case-insensitively — a reply consisting of the line
"quality: 8/10" leaves the quality score at the default 5, while the
exact-case "Quality: 8/10" stores 8. -/
theorem lowercase_header_not_recognized_counterexample :
    (parse_quality_analysis (("quality: 8/10").toList)).quality_score = 5 ∧
    (parse_quality_analysis (("Quality: 8/10").toList)).quality_score = 8 ∧
    (parse_quality_analysis (("quality: 8/10").toList)).quality_score ≠
      (parse_quality_analysis (("Quality: 8/10").toList)).quality_score := by decide

/-- C6 (amended): reply lines are matched case-SENSITIVELY against the
five field headers: a line that does not begin (after stripping) with one
of the exact-case headers `Quality:`, `Relevance:`, `Category:`,
`Insights:`, `Reason:` is ignored entirely, so an otherwise well-formed
line in a different letter case (e.g. "QUALITY: 8/10") leaves its field at
the default, while the exact-case header is recognized and stored. -/
theorem header_matching_is_case_sensitive :
    (∀ (r : QualityAnalysis) (line : PyStr),
      recognizedAny line = false → step r line = r) ∧
    (parse_quality_analysis (("QUALITY: 8/10").toList)).quality_score = 5 ∧
    (parse_quality_analysis (("Quality: 8/10").toList)).quality_score = 8 :=
  ⟨fun r line h => step_unrecognized r line h, by decide, by decide⟩

/-- Witness for `header_matching_is_case_sensitive`: a lower-case header
line is a no-op on the parser state. -/
theorem header_matching_is_case_sensitive_witness :
    step (initResult []) (("quality: 9/10").toList) = initResult [] :=
  header_matching_is_case_sensitive.1 (initResult []) (("quality: 9/10").toList) (by decide)

/-- A run of lines none of which sets `quality_score` preserves it. -/
theorem foldl_quality_const (lines : List PyStr) :
    ∀ r : QualityAnalysis, (∀ l ∈ lines, setsQuality l = false) →
      (lines.foldl step r).quality_score = r.quality_score := by
  induction lines with
  | nil => intro r _; rfl
  | cons line rest ih =>
    intro r h
    rw [List.foldl_cons, ih (step r line) (fun l hl => h l (List.mem_cons_of_mem _ hl)),
      step_quality_not_set r line (h line (List.mem_cons_self _ _))]

/-- A run of lines none of which sets `relevance_score` preserves it. -/
theorem foldl_relevance_const (lines : List PyStr) :
    ∀ r : QualityAnalysis, (∀ l ∈ lines, setsRelevance l = false) →
      (lines.foldl step r).relevance_score = r.relevance_score := by
  induction lines with
  | nil => intro r _; rfl
  | cons line rest ih =>
    intro r h
    rw [List.foldl_cons, ih (step r line) (fun l hl => h l (List.mem_cons_of_mem _ hl)),
      step_relevance_not_set r line (h line (List.mem_cons_self _ _))]

/-- A run of lines none of which sets `category` preserves it. -/
theorem foldl_category_const (lines : List PyStr) :
    ∀ r : QualityAnalysis, (∀ l ∈ lines, setsCategory l = false) →
      (lines.foldl step r).category = r.category := by
  induction lines with
  | nil => intro r _; rfl
  | cons line rest ih =>
    intro r h
    rw [List.foldl_cons, ih (step r line) (fun l hl => h l (List.mem_cons_of_mem _ hl)),
      step_category_not_set r line (h line (List.mem_cons_self _ _))]

/-- A run of lines none of which sets `insights` preserves it. -/
theorem foldl_insights_const (lines : List PyStr) :
    ∀ r : QualityAnalysis, (∀ l ∈ lines, setsInsights l = false) →
      (lines.foldl step r).insights = r.insights := by
  induction lines with
  | nil => intro r _; rfl
  | cons line rest ih =>
    intro r h
    rw [List.foldl_cons, ih (step r line) (fun l hl => h l (List.mem_cons_of_mem _ hl)),
      step_insights_not_set r line (h line (List.mem_cons_self _ _))]

/-- A run of lines none of which sets `reason` preserves it. -/
theorem foldl_reason_const (lines : List PyStr) :
    ∀ r : QualityAnalysis, (∀ l ∈ lines, setsReason l = false) →
      (lines.foldl step r).reason = r.reason := by
  induction lines with
  | nil => intro r _; rfl
  | cons line rest ih =>
    intro r h
    rw [List.foldl_cons, ih (step r line) (fun l hl => h l (List.mem_cons_of_mem _ hl)),
      step_reason_not_set r line (h line (List.mem_cons_self _ _))]

/-- C10: when several reply lines carry the same recognized field header,
the parser keeps the value of the LAST such line — whatever earlier lines
(the `pre` prefix) stored, a setting line followed only by lines that do
not set the same field determines the final field value.  This holds for
Quality, Relevance, Category, Insights and Reason alike; the first
conjunct records that `_parse_quality_analysis` is exactly this fold over
the reply's lines. -/
theorem later_field_lines_overwrite_earlier :
    (∀ s : PyStr, parse_quality_analysis s = (linesOf s).foldl step (initResult s)) ∧
    (∀ (r : QualityAnalysis) (pre post : List PyStr) (line : PyStr) (n : Int),
      (("Quality:").toList).isPrefixOf (pyStrip line) = true →
      numericField (pyStrip line) = some n →
      (∀ l ∈ post, setsQuality l = false) →
      ((pre ++ line :: post).foldl step r).quality_score = max 1 (min 10 n)) ∧
    (∀ (r : QualityAnalysis) (pre post : List PyStr) (line : PyStr) (n : Int),
      (("Relevance:").toList).isPrefixOf (pyStrip line) = true →
      numericField (pyStrip line) = some n →
      (∀ l ∈ post, setsRelevance l = false) →
      ((pre ++ line :: post).foldl step r).relevance_score = max 1 (min 10 n)) ∧
    (∀ (r : QualityAnalysis) (pre post : List PyStr) (line : PyStr),
      setsCategory line = true →
      (∀ l ∈ post, setsCategory l = false) →
      ((pre ++ line :: post).foldl step r).category = textField (pyStrip line)) ∧
    (∀ (r : QualityAnalysis) (pre post : List PyStr) (line : PyStr),
      setsInsights line = true →
      (∀ l ∈ post, setsInsights l = false) →
      ((pre ++ line :: post).foldl step r).insights = [textField (pyStrip line)]) ∧
    (∀ (r : QualityAnalysis) (pre post : List PyStr) (line : PyStr),
      setsReason line = true →
      (∀ l ∈ post, setsReason l = false) →
      ((pre ++ line :: post).foldl step r).reason = textField (pyStrip line)) := by
  refine ⟨fun s => rfl, ?_, ?_, ?_, ?_, ?_⟩
  · intro r pre post line n hpre hn hpost
    rw [List.foldl_append, List.foldl_cons,
      foldl_quality_const post _ hpost,
      step_quality_set _ line n hpre hn]
  · intro r pre post line n hpre hn hpost
    rw [List.foldl_append, List.foldl_cons,
      foldl_relevance_const post _ hpost,
      step_relevance_set _ line n hpre hn]
  · intro r pre post line hline hpost
    rw [List.foldl_append, List.foldl_cons,
      foldl_category_const post _ hpost,
      step_category_set _ line hline]
  · intro r pre post line hline hpost
    rw [List.foldl_append, List.foldl_cons,
      foldl_insights_const post _ hpost,
      step_insights_set _ line hline]
  · intro r pre post line hline hpost
    rw [List.foldl_append, List.foldl_cons,
      foldl_reason_const post _ hpost,
      step_reason_set _ line hline]

/-- Witness for `later_field_lines_overwrite_earlier` at a concrete
reply: a second `Quality:` line overwrites the first. -/
theorem later_field_lines_overwrite_earlier_witness :
    (([("Quality: 3/10").toList] ++
        ("Quality: 9/10").toList :: [("Relevance: 2/10").toList]).foldl step
      (initResult [])).quality_score = max 1 (min 10 9) :=
  later_field_lines_overwrite_earlier.2.1 (initResult [])
    [("Quality: 3/10").toList] [("Relevance: 2/10").toList]
    (("Quality: 9/10").toList) 9 (by decide) (by decide) (by decide)

/-- Every counted term has a count of at least 2. -/
theorem termCounts_two_le (l : List Article) :
    ∀ p ∈ termCounts l, 2 ≤ p.2 := by
  intro p hp
  unfold termCounts at hp
  rcases List.mem_filterMap.mp hp with ⟨t, _, hf⟩
  dsimp only at hf
  by_cases h : 2 ≤ countOccs (pyLower t) (pyLower (totalText l))
  · rw [if_pos h] at hf
    cases hf
    exact h
  · rw [if_neg h] at hf
    cases hf

/-- C7: `detect_trends` returns at most 3 trends; every returned trend is
the formatted string of a vocabulary term whose non-overlapping
case-insensitive count over the concatenated corpus text is at least 2;
the counted terms are sorted descending by count, the (stable) sort
breaking ties by vocabulary order, since `termCounts` lists the terms in
vocabulary order and a tied pair in that order survives in order; and on
the concrete corpus with "GPT" occurring 3 times and "NLP" once, the
result is exactly ["GPT developments (mentioned 3 times)"]. -/
theorem detect_trends_top3_by_count :
    (∀ l : List Article, (detect_trends l).length ≤ 3) ∧
    (∀ (l : List Article) (s : PyStr), s ∈ detect_trends l →
      ∃ p ∈ termCounts l, 2 ≤ p.2 ∧ s = formatTrend p) ∧
    (∀ l : List Article,
      ((List.insertionSort trendGE (termCounts l)).take 3).Sorted trendGE) ∧
    (∀ (l : List Article) (p q : PyStr × Nat),
      List.Sublist [p, q] (termCounts l) → p.2 = q.2 →
      List.Sublist [p, q] (List.insertionSort trendGE (termCounts l))) ∧
    detect_trends
        [⟨("GPT alpha").toList, ("GPT beta NLP").toList, [], []⟩,
          ⟨("GPT gamma").toList, ("delta").toList, [], []⟩] =
      [("GPT developments (mentioned 3 times)").toList] := by
  refine ⟨?_, ?_, ?_, ?_, by decide⟩
  · intro l
    unfold detect_trends
    split
    · simp
    · simp only [List.length_map, List.length_take]
      exact min_le_left _ _
  · intro l s hs
    unfold detect_trends at hs
    split at hs
    · cases hs
    · rcases List.mem_map.mp hs with ⟨p, hp, rfl⟩
      have hp2 : p ∈ List.insertionSort trendGE (termCounts l) :=
        List.take_subset 3 _ hp
      have hp3 : p ∈ termCounts l := (List.perm_insertionSort trendGE _).subset hp2
      exact ⟨p, hp3, termCounts_two_le l p hp3, rfl⟩
  · intro l
    exact List.Pairwise.sublist (List.take_sublist 3 _)
      (List.sorted_insertionSort trendGE (termCounts l))
  · intro l p q hsub heq
    exact List.pair_sublist_insertionSort (le_of_eq heq.symm) hsub

/-- Witness for `detect_trends_top3_by_count` at a concrete corpus with a
tie: "GPT" and "NLP" both occur twice, and the tied pair keeps vocabulary
order through the sort. -/
theorem detect_trends_top3_by_count_witness :
    List.Sublist [(("GPT").toList, 2), (("NLP").toList, 2)]
      (List.insertionSort trendGE
        (termCounts [⟨("GPT one NLP").toList, ("GPT two NLP").toList, [], []⟩])) :=
  detect_trends_top3_by_count.2.2.2.1
    [⟨("GPT one NLP").toList, ("GPT two NLP").toList, [], []⟩]
    (("GPT").toList, 2) (("NLP").toList, 2)
    (by
      rw [(by decide :
        termCounts [⟨("GPT one NLP").toList, ("GPT two NLP").toList, [], []⟩] =
          [(("GPT").toList, 2), (("NLP").toList, 2)])])
    rfl

/-- Tier i only ever returns a text longer than 200 characters. -/
theorem firstLongSelector_long (doc : SoupDoc) (sels : List PyStr) :
    ∀ t : PyStr, firstLongSelector doc sels = some t → 200 < t.length := by
  induction sels with
  | nil => intro t h; cases h
  | cons sel rest ih =>
    intro t h
    rw [firstLongSelector] at h
    split at h
    · split at h
      · cases h
        assumption
      · exact ih t h
    · exact ih t h

/-- If no selector matches any element, tier i finds nothing. -/
theorem firstLongSelector_none (doc : SoupDoc)
    (h : ∀ sel, doc.selectText sel = none) :
    ∀ sels : List PyStr, firstLongSelector doc sels = none := by
  intro sels
  induction sels with
  | nil => rfl
  | cons sel rest ih =>
    simp only [firstLongSelector]
    rw [h sel]
    exact ih

/-- Joining a one-element list is the element itself. -/
theorem intercalate_single (t : PyStr) : List.intercalate [' '] [t] = t := by
  simp [List.intercalate]

/-- Counterexample to C8's final clause as stated: on a document whose
only element is a paragraph whose text is literally "No content
extracted", the function returns the sentinel string even though the
tier-iii concatenation is nonempty (it equals that same text). -/
theorem sentinel_with_nonempty_paragraphs_counterexample :
    extract_article_text ⟨fun _ => none, [sentinel], [sentinel]⟩ = sentinel ∧
    List.intercalate [' ']
        (SoupDoc.paraTexts ⟨fun _ => none, [sentinel], [sentinel]⟩) ≠ [] := by
  constructor
  · rfl
  · decide

/-- C8 (amended): on a document whose only content is a single paragraph
element of 60 characters (no selector matches, and the paragraph is the
only `p`/`div` element), the extraction cascade returns that paragraph's
text verbatim via the tier-iii fallback, and that text is not the
sentinel; in general the sentinel string is returned only when the
tier-iii concatenation of all paragraph texts is empty or is itself
literally the string "No content extracted". -/
theorem single_paragraph_extraction :
    (∀ (t : PyStr) (doc : SoupDoc),
      (∀ sel, doc.selectText sel = none) →
      doc.blockTexts = [t] →
      doc.paraTexts = [t] →
      t.length = 60 →
      extract_article_text doc = t ∧ t ≠ sentinel) ∧
    (∀ doc : SoupDoc, extract_article_text doc = sentinel →
      List.intercalate [' '] doc.paraTexts = [] ∨
        List.intercalate [' '] doc.paraTexts = sentinel) := by
  constructor
  · intro t doc hsel hb hp h60
    have hne : t ≠ sentinel := by
      intro he
      rw [he] at h60
      exact absurd h60 (by decide)
    refine ⟨?_, hne⟩
    unfold extract_article_text
    rw [firstLongSelector_none doc hsel content_selectors]
    dsimp only
    rw [hb, hp]
    have hfil : List.filter (fun s => decide (50 < s.length)) [t] = [t] := by
      have : (decide (50 < t.length)) = true := by rw [h60]; decide
      simp [List.filter, this]
    rw [hfil, intercalate_single]
    have hnot : ¬ 200 < t.length := by rw [h60]; decide
    rw [if_neg hnot]
    have htne : t ≠ [] := by
      intro he
      rw [he] at h60
      exact absurd h60 (by decide)
    rw [if_pos htne]
  · intro doc h
    unfold extract_article_text at h
    cases hf : firstLongSelector doc content_selectors with
    | some t =>
      rw [hf] at h
      dsimp only at h
      have hlong := firstLongSelector_long doc content_selectors t hf
      rw [h] at hlong
      exact absurd hlong (by decide)
    | none =>
      rw [hf] at h
      dsimp only at h
      by_cases hfull :
          200 < (List.intercalate [' ']
            (doc.blockTexts.filter (fun t => 50 < t.length))).length
      · rw [if_pos hfull] at h
        rw [h] at hfull
        exact absurd hfull (by decide)
      · rw [if_neg hfull] at h
        by_cases hpara : List.intercalate [' '] doc.paraTexts ≠ []
        · rw [if_pos hpara] at h
          exact Or.inr h
        · exact Or.inl (not_not.mp hpara)

/-- Witness for `single_paragraph_extraction` at a concrete document: a
single 60-character paragraph is returned verbatim. -/
theorem single_paragraph_extraction_witness :
    extract_article_text
        ⟨fun _ => none, [List.replicate 60 'a'], [List.replicate 60 'a']⟩ =
      List.replicate 60 'a' ∧ List.replicate 60 'a' ≠ sentinel :=
  single_paragraph_extraction.1 (List.replicate 60 'a')
    ⟨fun _ => none, [List.replicate 60 'a'], [List.replicate 60 'a']⟩
    (fun _ => rfl) rfl rfl (by decide)
